import Mathlib

/-!
Verification development for the `ulleng_do_optimize` dashboard's two
algorithmic cores (src/utils.py and src/data_loaders.py):

* the address/text matcher (`_norm_text`, `_tokenize_address`,
  `_address_candidates`, `_find_accident_photo_fast`, `_find_rockfall_photo`);
* the SMS notice classifier and the two count summarizers
  (`classify`, `_summarize_sms_notice_counts`,
  `_summarize_sms_notice_counts_window`).

Python strings are modelled as Lean `String` (operated on through
`String.data : List Char`).  Python's `k in s` substring test, `str.strip`,
`str.lower`, `str.replace` and the specific regular expressions used by the
source are embedded as executable functions below.  Unicode NFC
canonicalisation (`unicodedata.normalize("NFC", ·)`) is kept as an explicit
function parameter `nfc` of the matcher definitions, since its full table is
external to the repository; theorems that need a fact about it state that
fact as a hypothesis (e.g. that strings consisting only of digits, lowercase
ASCII letters and precomposed Hangul syllables are NFC-normal).
-/

namespace Ulleung

/-- Python's `needle in hay` substring test (`True` for an empty needle). -/
def containsSub (hay needle : List Char) : Bool :=
  match hay with
  | [] => needle.isEmpty
  | _ :: t => needle.isPrefixOf hay || containsSub t needle

/-- Python's `k in m` on strings. -/
def pyIn (k m : String) : Bool :=
  containsSub m.data k.data

/-- Python's `\s` / `str.strip` whitespace set for `str` patterns
(ASCII whitespace, the C1 separators, and the Unicode space characters). -/
def isPySpace (c : Char) : Bool :=
  let v := c.toNat
  v == 0x20 || v == 0x09 || v == 0x0A || v == 0x0D || v == 0x0B || v == 0x0C ||
  (0x1C ≤ v && v ≤ 0x1F) || v == 0x85 || v == 0xA0 || v == 0x1680 ||
  (0x2000 ≤ v && v ≤ 0x200A) || v == 0x2028 || v == 0x2029 ||
  v == 0x202F || v == 0x205F || v == 0x3000

/-- Python `str.strip()`: drop leading and trailing whitespace. -/
def pyStrip (s : String) : String :=
  ⟨((s.data.dropWhile isPySpace).reverse.dropWhile isPySpace).reverse⟩

-- ---------------------------------------------------------------------------
-- SMS keyword constants (src/data_loaders.py lines 32-106)
-- ---------------------------------------------------------------------------

def SMS_SHIP_KEYWORDS : List String :=
  ["금광해운", "대저해운", "대저해운 도착시간", "에이치해운", "미래해운",
   "우성해운", "주식회사태성해운", "태성해운 도착시간", "한국해운"]

def SMS_SHIP_VESSEL_KEYWORDS : List String :=
  ["금광11호", "미래15호"]

def SMS_PEOPLE_KEYWORDS : List String :=
  ["대저페리", "썬라이즈 도착시간", "씨스포빌", "씨스포빌 도착시간",
   "울릉크루즈", "제이에이치페리", "제이에이치페리 도착시간"]

def SMS_PEOPLE_VESSEL_KEYWORDS : List String :=
  ["씨스타11호", "씨스타1호", "씨스타5호", "뉴씨다오펄호", "뉴시다오펄호",
   "썬라이즈호", "퀸스타2호"]

def SMS_PASSENGER_KEYWORDS : List String :=
  ["탑승인원", "여객", "승객", "승선", "크루즈"]

def SMS_CARGO_KEYWORDS : List String :=
  ["화물", "차량", "선적", "택배", "물류"]

def SMS_CANCEL_KEYWORDS : List String :=
  ["결항", "취소", "출항 취소", "운항 취소"]

def SMS_CONTROL_KEYWORDS : List String :=
  ["운항 통제", "운항통제", "운항이 통제", "통제되었습니다"]

def SMS_CHANGE_KEYWORDS : List String :=
  ["시간 변경", "시간변경", "시간 변경된", "시간변경된"]

def SMS_ARRIVE_KEYWORDS : List String :=
  ["입항", "입항 예정", "입항 예정시간", "입항입니다", "도착", "도착시간"]

def SMS_DEPART_KEYWORDS : List String :=
  ["출항", "출발", "운항예정", "운항 예정", "정상운항", "운항합니다",
   "출항 예정", "정상출항", "출항합니다", "출발합니다"]

-- ---------------------------------------------------------------------------
-- The route direction regular expressions, embedded as matchers.
--
-- SMS_ARRIVE_ROUTE_PATTERNS = [r"포항.*?(→|->|➡|>).*?울릉",
--                              r"포항\(영일만항\).*?→.*?울릉\(사동항\)"]
-- SMS_DEPART_ROUTE_PATTERNS = [r"울릉.*?(→|->|➡|>).*?포항",
--                              r"울릉\(사동항\).*?→.*?포항\(영일만항\)"]
-- plus the direct inbound pattern
--   ["'""]?\s*포항\s*["'""]?\s*(?:→|->|➡|>)\s*울릉
--
-- `matchesAt`-style predicates decide whether a match of the pattern starts
-- exactly at the head of the given character list; `re.search(p, s)` is then
-- the first position (scanning left to right) at which the pattern matches,
-- which is exactly `m.start()` for Python's leftmost-match search.
-- A `.` in these patterns matches any character except a newline.
-- ---------------------------------------------------------------------------

/-- Length of an arrow token `(→|->|➡|>)` at the head of the list, if any. -/
def arrowLen : List Char → Option Nat
  | '→' :: _ => some 1
  | '-' :: '>' :: _ => some 2
  | '➡' :: _ => some 1
  | '>' :: _ => some 1
  | _ => none

/-- `.*?p`: some (possibly empty) run of non-newline characters followed by a
position satisfying `p`. -/
def scanDot (p : List Char → Bool) : List Char → Bool
  | [] => p []
  | c :: t => p (c :: t) || (!(c == '\n') && scanDot p t)

/-- `\s*p`: some (possibly empty) run of whitespace followed by `p`. -/
def wsThen (p : List Char → Bool) : List Char → Bool
  | [] => p []
  | c :: t => p (c :: t) || (isPySpace c && wsThen p t)

/-- `[cs]?p`: optionally one character from `cs`, then `p`. -/
def optCharThen (cs : List Char) (p : List Char → Bool) (s : List Char) : Bool :=
  p s || (match s with
          | c :: t => cs.contains c && p t
          | [] => false)

/-- A literal followed by `p`. -/
def litThen (lit : List Char) (p : List Char → Bool) (s : List Char) : Bool :=
  lit.isPrefixOf s && p (s.drop lit.length)

/-- An arrow token followed by `p`. -/
def arrowThen (p : List Char → Bool) (s : List Char) : Bool :=
  match arrowLen s with
  | some n => p (s.drop n)
  | none => false

/-- `first.*?(→|->|➡|>).*?last` matches starting at the head of `s`. -/
def routeArrowAt (first last : List Char) (s : List Char) : Bool :=
  litThen first (scanDot (arrowThen (scanDot (last.isPrefixOf ·)))) s

/-- `first.*?→.*?last` matches starting at the head of `s`
(the parenthesised-port variants of the route patterns). -/
def routeLitAt (first last : List Char) (s : List Char) : Bool :=
  litThen first (scanDot (litThen ['→'] (scanDot (last.isPrefixOf ·)))) s

/-- The quote characters of the direct inbound pattern's optional class:
the source spells it with the ASCII double quote listed twice plus the
ASCII apostrophe (no non-ASCII characters occur in the class), so the set
is exactly `"` (0x22) and `'` (0x27). -/
def quoteChars : List Char :=
  [Char.ofNat 0x22, Char.ofNat 0x27]

/-- `["'""]?\s*포항\s*["'""]?\s*(?:→|->|➡|>)\s*울릉` matches starting at the
head of `s`. -/
def directInboundAt (s : List Char) : Bool :=
  optCharThen quoteChars
    (wsThen (litThen ("포항").data
      (wsThen (optCharThen quoteChars
        (wsThen (arrowThen (wsThen (("울릉").data.isPrefixOf ·)))))))) s

/-- `re.search`: the first index (from `i`) at which `pAt` matches, if any. -/
def searchFrom (pAt : List Char → Bool) (i : Nat) : List Char → Option Nat
  | [] => if pAt [] then some i else none
  | c :: t => if pAt (c :: t) then some i else searchFrom pAt (i + 1) t

/-- Fold of `m.start()` values exactly as the `classify` loops do:
`pos = m.start if pos is None else min(pos, m.start)`. -/
def foldPos (acc : Option Nat) (m : Option Nat) : Option Nat :=
  match m with
  | none => acc
  | some i =>
      match acc with
      | none => some i
      | some j => some (min j i)

/-- `arrive_pos` of `classify`: least match start over
`SMS_ARRIVE_ROUTE_PATTERNS`. -/
def arrivePos (s : List Char) : Option Nat :=
  foldPos
    (foldPos none (searchFrom (routeArrowAt ("포항").data ("울릉").data) 0 s))
    (searchFrom (routeLitAt ("포항(영일만항)").data ("울릉(사동항)").data) 0 s)

/-- `depart_pos` of `classify`: least match start over
`SMS_DEPART_ROUTE_PATTERNS`. -/
def departPos (s : List Char) : Option Nat :=
  foldPos
    (foldPos none (searchFrom (routeArrowAt ("울릉").data ("포항").data) 0 s))
    (searchFrom (routeLitAt ("울릉(사동항)").data ("포항(영일만항)").data) 0 s)

/-- Python `re.search(p, s)` truthiness for the direct inbound pattern. -/
def directSearch (s : List Char) : Option Nat :=
  searchFrom directInboundAt 0 s

/--
The fixed cascade classifier `classify` of `_summarize_sms_notice_counts`
(src/data_loaders.py lines 1324-1361).  Categories are the Python label
strings; `none` models Python `None`.
-/
def classify (msg : String) : Option String :=
  if msg = "" then none
  else if SMS_CANCEL_KEYWORDS.any (fun k => pyIn k msg) then some "결항"
  else if SMS_CONTROL_KEYWORDS.any (fun k => pyIn k msg) then some "운항통제"
  else if SMS_CHANGE_KEYWORDS.any (fun k => pyIn k msg) then some "시간변경"
  else if (directSearch msg.data).isSome then some "입항"
  else
    match departPos msg.data, arrivePos msg.data with
    | some d, some a => if d < a then some "출항" else some "입항"
    | some _, none => some "출항"
    | none, some _ => some "입항"
    | none, none =>
        let has_arrive := SMS_ARRIVE_KEYWORDS.any (fun k => pyIn k msg)
        let has_depart := SMS_DEPART_KEYWORDS.any (fun k => pyIn k msg)
        if has_arrive && !has_depart then some "입항"
        else if has_depart && !has_arrive then some "출항"
        else none

/--
The per-message label assigned by the vectorized mask cascade of
`_summarize_sms_notice_counts_window` (src/data_loaders.py lines 1233-1258).
Each `str.contains("|".join(KEYWORDS), regex=True)` mask is an alternation of
literal keywords (none contains a regex metacharacter), i.e. "some keyword is
a substring"; each later mask only fills rows whose label is still NA, so the
masks form an if/elif chain on every single row.
-/
def windowLabel (msg : String) : Option String :=
  if SMS_CANCEL_KEYWORDS.any (fun k => pyIn k msg) then some "결항"
  else if SMS_CONTROL_KEYWORDS.any (fun k => pyIn k msg) then some "운항통제"
  else if SMS_CHANGE_KEYWORDS.any (fun k => pyIn k msg) then some "시간변경"
  else if (directSearch msg.data).isSome then some "입항"
  else if SMS_ARRIVE_KEYWORDS.any (fun k => pyIn k msg) then some "입항"
  else if SMS_DEPART_KEYWORDS.any (fun k => pyIn k msg) then some "출항"
  else none

-- ---------------------------------------------------------------------------
-- Address/text matcher (src/utils.py)
-- ---------------------------------------------------------------------------

/-- The characters kept by `_NORM_TEXT_PATTERN.sub("", ·)`, i.e. the
complement of `[^0-9a-z가-힣]`: digits, lowercase ASCII letters and the
precomposed Hangul syllables U+AC00..U+D7A3. -/
def isNormChar (c : Char) : Bool :=
  let v := c.toNat
  (0x30 ≤ v && v ≤ 0x39) || (0x61 ≤ v && v ≤ 0x7A) || (0xAC00 ≤ v && v ≤ 0xD7A3)

/-- `str.lower` character map.  Non-ASCII cased letters lowercase to other
non-ASCII letters, which the subsequent `[^0-9a-z가-힣]` filter removes either
way, so only the ASCII case fold is observable after `_norm_text`. -/
def pyLowerChar (c : Char) : Char :=
  if 0x41 ≤ c.toNat && c.toNat ≤ 0x5A then Char.ofNat (c.toNat + 0x20) else c

/-- `str.lower`. -/
def pyLower (s : String) : String :=
  ⟨s.data.map pyLowerChar⟩

/-- `_NORM_TEXT_PATTERN.sub("", s)`: strip every disallowed character. -/
def normFilter (s : String) : String :=
  ⟨s.data.filter isNormChar⟩

/--
`_norm_text` (src/utils.py lines 72-78):
`s = "" if s is None else str(s); s = NFC(s); s = s.strip().lower();`
then remove all characters outside `[0-9a-z가-힣]`.  `nfc` is the Unicode
NFC canonicalisation, kept as a parameter (see the module docstring).
-/
def _norm_text (nfc : String → String) (s : Option String) : String :=
  let s := match s with
           | none => ""
           | some v => v
  normFilter (pyLower (pyStrip (nfc s)))

/-- One left-to-right pass of `_ADDRESS_TOKEN_PATTERN.findall`
(`[0-9]+|[가-힣]+`): maximal digit runs and maximal Hangul runs, in order.
`cur` is the run currently being read, reversed; `kind` is 1 for a digit run,
2 for a Hangul run, 0 for none. -/
def runsAux (cur : List Char) (kind : Nat) : List Char → List (List Char)
  | [] => if cur.isEmpty then [] else [cur.reverse]
  | c :: t =>
      let k := if '0' ≤ c && c ≤ '9' then 1
               else if 0xAC00 ≤ c.toNat && c.toNat ≤ 0xD7A3 then 2
               else 0
      if k == 0 then
        if cur.isEmpty then runsAux [] 0 t else cur.reverse :: runsAux [] 0 t
      else if k == kind then runsAux (c :: cur) kind t
      else
        if cur.isEmpty then runsAux [c] k t else cur.reverse :: runsAux [c] k t

/-- `_ADDRESS_TOKEN_PATTERN.findall(normalized)`. -/
def tokenRuns (s : String) : List String :=
  (runsAux [] 0 s.data).map (fun cs => ⟨cs⟩)

/--
`_tokenize_address` (src/utils.py lines 81-91): normalize the address, split
it into digit/Hangul runs, and keep the tokens of length ≥ 2 as a set
(Python returns a `frozenset`; we return a `Finset String`).
-/
def _tokenize_address (nfc : String → String) (address : String) : Finset String :=
  let normalized := _norm_text nfc (some address)
  if normalized = "" then ∅
  else ((tokenRuns normalized).filter (fun t => 2 ≤ t.length)).toFinset

/-- Python `str.replace(pat, rep)` on character lists (all non-overlapping
occurrences, left to right).  `skip = 0` means "look for the next occurrence
here"; after emitting `rep` for a match the remaining `pat.length - 1` match
characters are consumed via the skip counter, which keeps the recursion
structural on the list. -/
def replaceGo (pat rep : List Char) : Nat → List Char → List Char
  | 0, [] => []
  | 0, c :: t =>
      if pat.isPrefixOf (c :: t) && !pat.isEmpty then
        rep ++ replaceGo pat rep (pat.length - 1) t
      else c :: replaceGo pat rep 0 t
  | _ + 1, [] => []
  | n + 1, _ :: t => replaceGo pat rep n t

/-- Python `s.replace(pat, rep)`. -/
def pyReplace (s pat rep : String) : String :=
  ⟨replaceGo pat.data rep.data 0 s.data⟩

/-- Keep the first occurrence of each element (models inserting the
candidate keys into a Python `set` one by one; the source's set iteration
order is unspecified, so we fix the insertion order). -/
def dedupKeep (seen : List String) : List String → List String
  | [] => []
  | x :: t => if x ∈ seen then dedupKeep seen t else x :: dedupKeep (x :: seen) t

/--
`_address_candidates` (src/utils.py lines 107-116): the normalized address
plus four variants with administrative prefixes stripped, non-empty ones only.
-/
def _address_candidates (nfc : String → String) (address : String) : List String :=
  let base := _norm_text nfc (some address)
  if base = "" then []
  else
    (dedupKeep []
      [base,
       pyReplace (pyReplace base "경상북도" "") "경북" "",
       pyReplace (pyReplace base "울릉군" "") "울릉" "",
       pyReplace (pyReplace base "경상북도" "") "울릉군" "",
       pyReplace (pyReplace base "경북" "") "울릉" ""]).filter (fun k => k ≠ "")

/-- Python `dict` lookup on an insertion-ordered association list
(the photo indices have unique keys, first file wins). -/
def dictGet (k : String) (idx : List (String × String)) : Option String :=
  (idx.find? (fun kv => kv.1 = k)).map (fun kv => kv.2)

/-- The substring-containment fallback of `_find_accident_photo_fast`
(lines 215-219): first index key such that some non-empty target is contained
in the key or contains it. -/
def firstContain (targets : List String) : List (String × String) → Option String
  | [] => none
  | (key, path) :: rest =>
      if targets.any (fun t => t ≠ "" && (pyIn t key || pyIn key t)) then some path
      else firstContain targets rest

/-- The substring-containment fallback of `_find_rockfall_photo`
(lines 298-301): single target. -/
def firstContainOne (target : String) : List (String × String) → Option String
  | [] => none
  | (key, path) :: rest =>
      if pyIn target key || pyIn key target then some path
      else firstContainOne target rest

/-- Token-similarity score of an index key against the query's token set:
`len(address_tokens & key_tokens)`. -/
def tokScore (nfc : String → String) (a : Finset String) (key : String) : Nat :=
  (a ∩ _tokenize_address nfc key).card

/-- The token-overlap loop shared by `_find_accident_photo_fast` (lines
221-239) and `_find_rockfall_photo` (lines 303-321): track `best_match` and
`best_score`, updating when `score >= 2 and score > best_score`; keys with an
empty token set are skipped. -/
def tokenTierGo (nfc : String → String) (a : Finset String) :
    List (String × String) → Option String → Nat → Option String
  | [], best, _ => best
  | (key, path) :: rest, best, bestScore =>
      if _tokenize_address nfc key = ∅ then tokenTierGo nfc a rest best bestScore
      else
        let score := tokScore nfc a key
        if 2 ≤ score && bestScore < score then tokenTierGo nfc a rest (some path) score
        else tokenTierGo nfc a rest best bestScore

/-- The token-overlap tier: `best_match = None; best_score = 0; ...loop...`. -/
def tokenTier (nfc : String → String) (a : Finset String)
    (idx : List (String × String)) : Option String :=
  tokenTierGo nfc a idx none 0

/--
`_find_accident_photo_fast` (src/utils.py lines 188-239).  The photo index is
passed in as the insertion-ordered association list produced by
`_build_accident_photo_index` (normalized filename stem → path, keys
non-empty and unique, first file wins); the exact and partial indices are the
same dictionary in the source.
-/
def _find_accident_photo_fast (nfc : String → String) (address : String)
    (idx : List (String × String)) : Option String :=
  let targets := _address_candidates nfc address
  if targets = [] then none
  else
    match targets.findSome? (fun t => dictGet t idx) with
    | some p => some p
    | none =>
        let address_tokens := _tokenize_address nfc address
        if address_tokens = ∅ then firstContain targets idx
        else tokenTier nfc address_tokens idx

/--
`_find_rockfall_photo` (src/utils.py lines 281-321).  `address = None` models
the Python `None` argument; the returned path string stands for the `Path`.
-/
def _find_rockfall_photo (nfc : String → String) (address : Option String)
    (idx : List (String × String)) : Option String :=
  let target := match address with
                | none => ""
                | some a => _norm_text nfc (some a)
  if target = "" then none
  else
    match dictGet target idx with
    | some p => some p
    | none =>
        let target_tokens := _tokenize_address nfc target
        if target_tokens = ∅ then firstContainOne target idx
        else tokenTier nfc target_tokens idx

-- ---------------------------------------------------------------------------
-- SMS notice count summarizers (src/data_loaders.py lines 1201-1412)
--
-- Input records model the rows of the SMS dataframe after the date filter
-- (`dt.year == year`, resp. the `[start_dt, end_dt]` window): one record per
-- message, carrying its day (`sms_resDate.dt.date`, modelled as a `Nat`) and
-- its raw message text `sms_msg` (already a string; `astype(str)` is the
-- identity on strings).
-- ---------------------------------------------------------------------------

/-- A classified `work` row: day, stripped message, label. -/
structure Row where
  day : Nat
  msg : String
  label : String
  deriving DecidableEq

/-- A classified arrival/departure row with its vessel/passenger group. -/
structure GRow where
  day : Nat
  msg : String
  label : String
  group : String
  deriving DecidableEq

/-- `work["sms_msg_str"] = work["sms_msg"].astype(str).str.strip()`. -/
def stripMsgs (recs : List (Nat × String)) : List (Nat × String) :=
  recs.map (fun r => (r.1, pyStrip r.2))

/-- `work = work[~work["sms_msg_str"].str.contains("셔틀", regex=False)]`. -/
def dropShuttle (recs : List (Nat × String)) : List (Nat × String) :=
  recs.filter (fun r => !(pyIn "셔틀" r.2))

/-- Apply a per-message classifier and keep the rows whose label is not NA
(`work["label"] = ...; work = work[work["label"].notna()]`). -/
def labelRows (f : String → Option String) (recs : List (Nat × String)) : List Row :=
  recs.filterMap (fun r => (f r.2).map (fun l => ⟨r.1, r.2, l⟩))

/-- The shared row pipeline of both summarizers: strip, drop shuttle notices,
classify with `f`, drop unlabelled rows. -/
def pipeline (f : String → Option String) (recs : List (Nat × String)) : List Row :=
  labelRows f (dropShuttle (stripMsgs recs))

/-- `ship_keywords = list(SMS_SHIP_KEYWORDS) + list(SMS_SHIP_VESSEL_KEYWORDS)
+ list(SMS_CARGO_KEYWORDS)`. -/
def shipKeywordsAll : List String :=
  SMS_SHIP_KEYWORDS ++ SMS_SHIP_VESSEL_KEYWORDS ++ SMS_CARGO_KEYWORDS

/-- `people_keywords = list(SMS_PEOPLE_KEYWORDS) +
list(SMS_PEOPLE_VESSEL_KEYWORDS) + list(SMS_PASSENGER_KEYWORDS)`. -/
def peopleKeywordsAll : List String :=
  SMS_PEOPLE_KEYWORDS ++ SMS_PEOPLE_VESSEL_KEYWORDS ++ SMS_PASSENGER_KEYWORDS

/-- The vectorized vessel/passenger group of an arrival/departure row
(`선박` mask first, then `사람` on the rows still NA, rows with neither
group dropped). -/
def groupOf (msg : String) : Option String :=
  if shipKeywordsAll.any (fun k => pyIn k msg) then some "선박"
  else if peopleKeywordsAll.any (fun k => pyIn k msg) then some "사람"
  else none

/-- `arrival_departure = work[work["label"].isin(["입항","출항"])]` followed by
the group masks and `arrival_departure[arrival_departure["group"].notna()]`. -/
def arrDepRows (rows : List Row) : List GRow :=
  (rows.filter (fun r => r.label == "입항" || r.label == "출항")).filterMap
    (fun r => (groupOf r.msg).map (fun g => ⟨r.day, r.msg, r.label, g⟩))

/-- `other_categories = work[work["label"].isin(["결항","시간변경","운항통제"])]`. -/
def otherRows (rows : List Row) : List Row :=
  rows.filter (fun r => r.label == "결항" || r.label == "시간변경" || r.label == "운항통제")

/-- `DataFrame.drop_duplicates(subset=key)`: keep the first row for each key
value. -/
def dedupBy {α K : Type} [DecidableEq K] (key : α → K) (seen : List K) :
    List α → List α
  | [] => []
  | r :: t =>
      if key r ∈ seen then dedupBy key seen t
      else r :: dedupBy key (key r :: seen) t

/-- The five-entry `counts` dict (`입항, 출항, 운항통제, 결항, 시간변경`). -/
structure NoticeCounts where
  arrive : Nat
  depart : Nat
  control : Nat
  cancel : Nat
  change : Nat
  deriving DecidableEq

/-- The `breakdown` dict (`입항/출항` × `선박/사람`). -/
structure NoticeBreakdown where
  arriveShip : Nat
  arrivePeople : Nat
  departShip : Nat
  departPeople : Nat
  deriving DecidableEq

/-- `len(deduped[deduped["label"] == label])` for the cancel / time-change /
control counts; both summarizers dedup these rows on `["day","label"]`. -/
def otherCount (rows : List Row) (label : String) : Nat :=
  ((dedupBy (fun r => (r.day, r.label)) [] (otherRows rows)).filter
    (fun r => r.label == label)).length

/-- The year summarizer's arrival/departure breakdown: a plain row count of
the grouped rows, with no duplicate dropping (lines 1395-1399). -/
def yearBreakdownOf (rows : List Row) (label group : String) : Nat :=
  ((arrDepRows rows).filter (fun r => r.label == label && r.group == group)).length

/-- The window summarizer's arrival/departure breakdown: the grouped rows are
first deduplicated on `["day","label","group"]` (line 1285). -/
def winBreakdownOf (rows : List Row) (label group : String) : Nat :=
  ((dedupBy (fun r => (r.day, r.label, r.group)) [] (arrDepRows rows)).filter
    (fun r => r.label == label && r.group == group)).length

/-- The `counts` dict of `_summarize_sms_notice_counts` as a function of the
classified rows: `입항`/`출항` are overwritten with the breakdown sums
(lines 1408-1409). -/
def yearCountsOf (rows : List Row) : NoticeCounts :=
  { arrive := yearBreakdownOf rows "입항" "선박" + yearBreakdownOf rows "입항" "사람"
    depart := yearBreakdownOf rows "출항" "선박" + yearBreakdownOf rows "출항" "사람"
    control := otherCount rows "운항통제"
    cancel := otherCount rows "결항"
    change := otherCount rows "시간변경" }

/-- The `breakdown` dict of `_summarize_sms_notice_counts`. -/
def yearBreakdownSOf (rows : List Row) : NoticeBreakdown :=
  { arriveShip := yearBreakdownOf rows "입항" "선박"
    arrivePeople := yearBreakdownOf rows "입항" "사람"
    departShip := yearBreakdownOf rows "출항" "선박"
    departPeople := yearBreakdownOf rows "출항" "사람" }

/-- The `counts` dict of `_summarize_sms_notice_counts_window`
(lines 1298-1299). -/
def winCountsOf (rows : List Row) : NoticeCounts :=
  { arrive := winBreakdownOf rows "입항" "선박" + winBreakdownOf rows "입항" "사람"
    depart := winBreakdownOf rows "출항" "선박" + winBreakdownOf rows "출항" "사람"
    control := otherCount rows "운항통제"
    cancel := otherCount rows "결항"
    change := otherCount rows "시간변경" }

/-- The `breakdown` dict of `_summarize_sms_notice_counts_window`. -/
def winBreakdownSOf (rows : List Row) : NoticeBreakdown :=
  { arriveShip := winBreakdownOf rows "입항" "선박"
    arrivePeople := winBreakdownOf rows "입항" "사람"
    departShip := winBreakdownOf rows "출항" "선박"
    departPeople := winBreakdownOf rows "출항" "사람" }

/-- `total = sum(counts.values())`. -/
def totalOf (c : NoticeCounts) : Nat :=
  c.arrive + c.depart + c.control + c.cancel + c.change

/--
`_summarize_sms_notice_counts` (src/data_loaders.py lines 1303-1412) after
the year filter: `(counts, total, breakdown)` over the given records.
-/
def _summarize_sms_notice_counts (recs : List (Nat × String)) :
    NoticeCounts × Nat × NoticeBreakdown :=
  let rows := pipeline classify recs
  (yearCountsOf rows, totalOf (yearCountsOf rows), yearBreakdownSOf rows)

/--
`_summarize_sms_notice_counts_window` (src/data_loaders.py lines 1201-1300)
after the window filter: `(counts, breakdown)` over the given records, using
the vectorized mask cascade `windowLabel`.
-/
def _summarize_sms_notice_counts_window (recs : List (Nat × String)) :
    NoticeCounts × NoticeBreakdown :=
  let rows := pipeline windowLabel recs
  (winCountsOf rows, winBreakdownSOf rows)

-- ---------------------------------------------------------------------------
-- Theorems
-- ---------------------------------------------------------------------------

/-- A non-empty needle is never contained in the empty string. -/
lemma pyIn_empty {k : String} (h : pyIn k "" = true) : k = "" := by
  have hk : k.data.isEmpty = true := h
  have hd : k.data = [] := by simpa [List.isEmpty_iff] using hk
  cases k with
  | mk d =>
    simp only at hd
    subst hd
    rfl

/-- C1.  For every message string m, if m contains any cancellation keyword
(an element of SMS_CANCEL_KEYWORDS), then classify(m) returns the cancel
category (결항), regardless of any arrival, departure, control, or
time-change keywords or route-direction patterns that m also contains. -/
theorem classify_cancel_precedence (m k : String)
    (hk : k ∈ SMS_CANCEL_KEYWORDS) (hin : pyIn k m = true) :
    classify m = some "결항" := by
  have hne : m ≠ "" := by
    intro h
    subst h
    have := pyIn_empty hin
    subst this
    simp [SMS_CANCEL_KEYWORDS] at hk
  have hany : SMS_CANCEL_KEYWORDS.any (fun k => pyIn k m) = true :=
    List.any_eq_true.mpr ⟨k, hk, hin⟩
  simp [classify, hne, hany]

/-- Witness for C1: the spec's example scenario 2 contains the cancel
keyword 결항 (and no arrival keyword interferes). -/
theorem classify_cancel_precedence_witness :
    "결항" ∈ SMS_CANCEL_KEYWORDS ∧ pyIn "결항" "기상악화로 결항 되었습니다" = true ∧
    classify "기상악화로 결항 되었습니다" = some "결항" :=
  ⟨by decide, by decide,
   classify_cancel_precedence "기상악화로 결항 되었습니다" "결항" (by decide) (by decide)⟩

/-- C4.  For every message m that reaches the dual-route step of classify
(no cancel/control/time-change keyword, direct inbound pattern fails), if
both an arrival-route pattern and a departure-route pattern match, the
category is 출항 iff the earliest departure match starts strictly before the
earliest arrival match, and 입항 otherwise. -/
theorem classify_dual_route_position (m : String) (a d : Nat)
    (hc : SMS_CANCEL_KEYWORDS.any (fun k => pyIn k m) = false)
    (hk : SMS_CONTROL_KEYWORDS.any (fun k => pyIn k m) = false)
    (hch : SMS_CHANGE_KEYWORDS.any (fun k => pyIn k m) = false)
    (hdir : directSearch m.data = none)
    (ha : arrivePos m.data = some a)
    (hd : departPos m.data = some d) :
    (classify m = some "출항" ↔ d < a) ∧ (classify m = some "입항" ↔ a ≤ d) := by
  have hne : m ≠ "" := by
    intro h
    subst h
    rw [show ("" : String).data = [] from rfl,
        show arrivePos ([] : List Char) = none from by decide] at ha
    exact absurd ha (by simp)
  rw [classify]
  rw [if_neg hne]
  simp only [hc, hk, hch, hdir, Bool.false_eq_true, if_false, Option.isSome_none]
  rw [hd, ha]
  by_cases hlt : d < a
  · simp [hlt, Nat.not_le_of_lt hlt]
  · simp [hlt, Nat.le_of_not_lt hlt]

/-- Witness for C4: in `포항x>x울릉 울릉>포항` both route-pattern sets match;
the arrival pattern matches first (position 0 vs 5), so the message is
classified 입항. -/
theorem classify_dual_route_position_witness :
    arrivePos ("포항x>x울릉 울릉>포항").data = some 0 ∧
    departPos ("포항x>x울릉 울릉>포항").data = some 5 ∧
    classify "포항x>x울릉 울릉>포항" = some "입항" := by
  refine ⟨by decide, by decide, ?_⟩
  exact (classify_dual_route_position "포항x>x울릉 울릉>포항" 0 5 (by decide) (by decide)
    (by decide) (by decide) (by decide) (by decide)).2.mpr (by decide)

/-- C5.  For every message for which no cancel/control/time-change keyword
matches and no route-direction pattern (including the direct inbound one)
matches, classify falls back to the plain keyword sets: both arrival and
departure keywords → None; exactly one → that category; neither → None. -/
theorem classify_keyword_fallback (m : String)
    (hc : SMS_CANCEL_KEYWORDS.any (fun k => pyIn k m) = false)
    (hk : SMS_CONTROL_KEYWORDS.any (fun k => pyIn k m) = false)
    (hch : SMS_CHANGE_KEYWORDS.any (fun k => pyIn k m) = false)
    (hdir : directSearch m.data = none)
    (ha : arrivePos m.data = none)
    (hd : departPos m.data = none) :
    (SMS_ARRIVE_KEYWORDS.any (fun k => pyIn k m) = true →
      SMS_DEPART_KEYWORDS.any (fun k => pyIn k m) = true → classify m = none) ∧
    (SMS_ARRIVE_KEYWORDS.any (fun k => pyIn k m) = true →
      SMS_DEPART_KEYWORDS.any (fun k => pyIn k m) = false → classify m = some "입항") ∧
    (SMS_DEPART_KEYWORDS.any (fun k => pyIn k m) = true →
      SMS_ARRIVE_KEYWORDS.any (fun k => pyIn k m) = false → classify m = some "출항") ∧
    (SMS_ARRIVE_KEYWORDS.any (fun k => pyIn k m) = false →
      SMS_DEPART_KEYWORDS.any (fun k => pyIn k m) = false → classify m = none) := by
  by_cases hne : m = ""
  · subst hne
    revert hc hk hch hdir ha hd
    decide
  · rw [classify, if_neg hne]
    simp only [hc, hk, hch, hdir, Bool.false_eq_true, if_false, Option.isSome_none]
    rw [hd, ha]
    cases harr : SMS_ARRIVE_KEYWORDS.any (fun k => pyIn k m) <;>
      cases hdep : SMS_DEPART_KEYWORDS.any (fun k => pyIn k m) <;> simp

/-- Witness for C5: `도착 출발` contains a keyword from both plain sets and
matches no keyword of the first three tiers and no route pattern, so it is
ambiguous and discarded. -/
theorem classify_keyword_fallback_witness :
    SMS_ARRIVE_KEYWORDS.any (fun k => pyIn k "도착 출발") = true ∧
    SMS_DEPART_KEYWORDS.any (fun k => pyIn k "도착 출발") = true ∧
    classify "도착 출발" = none := by
  refine ⟨by decide, by decide, ?_⟩
  exact (classify_keyword_fallback "도착 출발" (by decide) (by decide) (by decide)
    (by decide) (by decide) (by decide)).1 (by decide) (by decide)

/-- Counterexample for C6: the two classification implementations are not
equivalent.  `울릉 > 포항 도착` matches the departure route pattern
`울릉.*?(→|->|➡|>).*?포항`, so the cascade classifier returns 출항; the
vectorized window cascade has no route-pattern step after the direct inbound
pattern and instead hits the arrival keyword 도착 first, returning 입항. -/
theorem window_vs_classify_counterexample :
    windowLabel "울릉 > 포항 도착" = some "입항" ∧
    classify "울릉 > 포항 도착" = some "출항" ∧
    windowLabel "울릉 > 포항 도착" ≠ classify "울릉 > 포항 도착" := by
  refine ⟨by decide, by decide, by decide⟩

/-- C6 (amended).  The vectorized window classifier agrees with the cascade
classify on the first four tiers: on any message containing a cancel,
control, or time-change keyword, or matching the direct inbound
포항→울릉 pattern, the two return the same category.  (Beyond those tiers
they genuinely differ: the window cascade replaces the route-pattern
positional tie-break and the keyword-ambiguity rule by an
arrival-keywords-then-departure-keywords chain.) -/
theorem window_agrees_on_first_tiers (m : String)
    (h : SMS_CANCEL_KEYWORDS.any (fun k => pyIn k m) = true ∨
         SMS_CONTROL_KEYWORDS.any (fun k => pyIn k m) = true ∨
         SMS_CHANGE_KEYWORDS.any (fun k => pyIn k m) = true ∨
         (directSearch m.data).isSome = true) :
    windowLabel m = classify m := by
  by_cases hne : m = ""
  · subst hne
    revert h
    decide
  · rw [classify, if_neg hne, windowLabel]
    cases hc : SMS_CANCEL_KEYWORDS.any (fun k => pyIn k m) <;>
      cases hk : SMS_CONTROL_KEYWORDS.any (fun k => pyIn k m) <;>
        cases hch : SMS_CHANGE_KEYWORDS.any (fun k => pyIn k m) <;>
          cases hdir : (directSearch m.data).isSome <;>
            simp_all

/-- Witness for C6's amended theorem: a message hitting the cancel tier is
classified identically by both implementations. -/
theorem window_agrees_on_first_tiers_witness :
    windowLabel "기상악화로 결항 되었습니다" = classify "기상악화로 결항 되었습니다" :=
  window_agrees_on_first_tiers "기상악화로 결항 되었습니다" (Or.inl (by decide))

/-- `containsSub` is the infix (substring) relation. -/
lemma containsSub_iff_infix {hay needle : List Char} :
    containsSub hay needle = true ↔ needle <:+: hay := by
  induction hay with
  | nil => simp [containsSub, List.isEmpty_iff]
  | cons c t ih =>
    rw [containsSub]
    simp [List.infix_cons_iff, ih]

/-- An occurrence of a needle whose characters all fail `p` survives
`dropWhile p`. -/
lemma infix_dropWhile {p : Char → Bool} {needle l : List Char}
    (h0 : ∀ c ∈ needle, p c = false) (hne : needle ≠ [])
    (h : needle <:+: l) : needle <:+: l.dropWhile p := by
  induction l with
  | nil =>
    exact absurd (List.infix_nil.mp h) hne
  | cons c t ih =>
    rw [List.dropWhile_cons]
    by_cases hc : p c = true
    · rw [if_pos hc]
      rcases List.infix_cons_iff.mp h with hpre | hinf
      · exfalso
        cases needle with
        | nil => exact hne rfl
        | cons n ns =>
          have hn : n = c := (List.cons_prefix_cons.mp hpre).1
          have := h0 n (List.mem_cons_self n ns)
          rw [hn, hc] at this
          exact Bool.true_eq_false.mp this
      · exact ih hinf
    · rw [if_neg hc]
      exact h

/-- An occurrence of a whitespace-free needle survives `str.strip`. -/
lemma pyIn_pyStrip {k m : String} (hne : k.data ≠ [])
    (h0 : ∀ c ∈ k.data, isPySpace c = false) (h : pyIn k m = true) :
    pyIn k (pyStrip m) = true := by
  have hocc := containsSub_iff_infix.mp h
  have h1 : k.data <:+: m.data.dropWhile isPySpace :=
    infix_dropWhile h0 hne hocc
  have h2 : k.data.reverse <:+: (m.data.dropWhile isPySpace).reverse :=
    List.reverse_infix.mpr h1
  have h3 : k.data.reverse <:+:
      (m.data.dropWhile isPySpace).reverse.dropWhile isPySpace :=
    infix_dropWhile (fun c hc => h0 c (List.mem_reverse.mp hc))
      (by simpa using hne) h2
  have h4 := List.reverse_infix.mpr h3
  rw [List.reverse_reverse] at h4
  exact containsSub_iff_infix.mpr h4

/-- The row pipeline distributes over record concatenation. -/
lemma pipeline_append (f : String → Option String) (xs ys : List (Nat × String)) :
    pipeline f (xs ++ ys) = pipeline f xs ++ pipeline f ys := by
  simp [pipeline, labelRows, dropShuttle, stripMsgs]

/-- A record whose stripped message contains 셔틀 produces no row. -/
lemma pipeline_single_shuttle (f : String → Option String) (d : Nat) (msg : String)
    (h : pyIn "셔틀" (pyStrip msg) = true) :
    pipeline f [(d, msg)] = [] := by
  simp [pipeline, stripMsgs, dropShuttle, labelRows, h]

/-- Inserting a shuttle record anywhere leaves the pipeline unchanged. -/
lemma pipeline_mid_shuttle (f : String → Option String) (xs ys : List (Nat × String))
    (d : Nat) (msg : String) (h : pyIn "셔틀" (pyStrip msg) = true) :
    pipeline f (xs ++ (d, msg) :: ys) = pipeline f (xs ++ ys) := by
  have he : xs ++ (d, msg) :: ys = xs ++ ([(d, msg)] ++ ys) := by simp
  rw [he, pipeline_append, pipeline_append, pipeline_single_shuttle f d msg h,
      pipeline_append]
  simp

/-- C8.  Any message containing the shuttle marker 셔틀 is excluded before
classification in both SMS count summarizers: it receives no category and
contributes to no count or breakdown, regardless of any other keyword
content. -/
theorem shuttle_excluded (xs ys : List (Nat × String)) (d : Nat) (msg : String)
    (h : pyIn "셔틀" msg = true) :
    _summarize_sms_notice_counts (xs ++ (d, msg) :: ys) =
      _summarize_sms_notice_counts (xs ++ ys) ∧
    _summarize_sms_notice_counts_window (xs ++ (d, msg) :: ys) =
      _summarize_sms_notice_counts_window (xs ++ ys) := by
  have hs : pyIn "셔틀" (pyStrip msg) = true :=
    pyIn_pyStrip (by decide) (by decide) h
  constructor
  · simp only [_summarize_sms_notice_counts]
    rw [pipeline_mid_shuttle classify xs ys d msg hs]
  · simp only [_summarize_sms_notice_counts_window]
    rw [pipeline_mid_shuttle windowLabel xs ys d msg hs]

/-- Witness for C8: a shuttle notice containing the cancel keyword 결항 still
contributes nothing to either summary. -/
theorem shuttle_excluded_witness :
    _summarize_sms_notice_counts [(1, "기상악화로 결항"), (1, "셔틀 결항")] =
      _summarize_sms_notice_counts [(1, "기상악화로 결항")] ∧
    _summarize_sms_notice_counts_window [(1, "기상악화로 결항"), (1, "셔틀 결항")] =
      _summarize_sms_notice_counts_window [(1, "기상악화로 결항")] :=
  shuttle_excluded [(1, "기상악화로 결항")] [] 1 "셔틀 결항" (by decide)

/-- After a key hits `seen`, `dedupBy` never again emits a row with that key. -/
lemma dedupBy_countP_eq_zero {α K : Type} [DecidableEq K] (key : α → K) (p : α → Bool)
    (k0 : K) (hp : ∀ x, p x = true → key x = k0) :
    ∀ (xs : List α) (seen : List K), k0 ∈ seen →
      (dedupBy key seen xs).countP p = 0 := by
  intro xs
  induction xs with
  | nil => intro seen _; simp [dedupBy]
  | cons r t ih =>
    intro seen hk
    rw [dedupBy]
    by_cases hmem : key r ∈ seen
    · rw [if_pos hmem]
      exact ih seen hk
    · rw [if_neg hmem, List.countP_cons]
      have hpr : p r = false := by
        cases hpr : p r
        · rfl
        · exact absurd (hp r hpr ▸ hk) hmem
      rw [hpr]
      simp [ih (key r :: seen) (List.mem_cons_of_mem _ hk)]

/-- `dedupBy` keeps at most one row per key value. -/
lemma dedupBy_countP_le_one {α K : Type} [DecidableEq K] (key : α → K) (p : α → Bool)
    (k0 : K) (hp : ∀ x, p x = true → key x = k0) :
    ∀ (xs : List α) (seen : List K), (dedupBy key seen xs).countP p ≤ 1 := by
  intro xs
  induction xs with
  | nil => intro; simp [dedupBy]
  | cons r t ih =>
    intro seen
    rw [dedupBy]
    by_cases hmem : key r ∈ seen
    · rw [if_pos hmem]
      exact ih seen
    · rw [if_neg hmem, List.countP_cons]
      by_cases hpr : p r = true
      · have h0 := dedupBy_countP_eq_zero key p k0 hp t (key r :: seen)
          (by rw [hp r hpr]; exact List.mem_cons_self _ _)
        simp [hpr, h0]
      · rw [Bool.eq_false_iff.mpr hpr]
        simpa using ih (key r :: seen)

/-- Counterexample for C7: the year summarizer `_summarize_sms_notice_counts`
does not deduplicate arrival/departure rows.  Two copies of the same message
on the same day (one distinct (day, category, subgroup) triple) contribute 2
to the reported 입항 count, not at most 1. -/
theorem year_arrdep_no_dedup_counterexample :
    (_summarize_sms_notice_counts
        [(1, "포항 → 울릉 입항 여객"), (1, "포항 → 울릉 입항 여객")]).1.arrive = 2 ∧
    ((arrDepRows (pipeline classify
        [(1, "포항 → 울릉 입항 여객"), (1, "포항 → 울릉 입항 여객")])).map
      (fun r => (r.day, r.label, r.group))).dedup.length = 1 := by
  constructor
  · decide
  · decide

/-- C7 (amended).  In both summarizers the 결항/운항통제/시간변경 counts are
computed from `otherRows` deduplicated on (day, label) — so a given
(day, category) pair contributes at most one row — and in the window
summarizer the 입항/출항 breakdown is computed from the grouped rows
deduplicated on (day, label, group) — at most one row per
(day, category, subgroup).  (`otherCount` and `winBreakdownOf` are filtered
lengths of exactly these deduplicated lists; the year summarizer's
`yearBreakdownOf` performs no deduplication, per the counterexample.) -/
theorem dedup_day_category (recs : List (Nat × String)) (d : Nat) (l g : String) :
    ((dedupBy (fun r => (r.day, r.label)) []
        (otherRows (pipeline classify recs))).countP
      (fun r => r.day == d && r.label == l) ≤ 1) ∧
    ((dedupBy (fun r => (r.day, r.label)) []
        (otherRows (pipeline windowLabel recs))).countP
      (fun r => r.day == d && r.label == l) ≤ 1) ∧
    ((dedupBy (fun r => (r.day, r.label, r.group)) []
        (arrDepRows (pipeline windowLabel recs))).countP
      (fun r => r.day == d && (r.label == l && r.group == g)) ≤ 1) := by
  refine ⟨?_, ?_, ?_⟩
  · exact dedupBy_countP_le_one _ _ (d, l)
      (by intro x hx; simp only [Bool.and_eq_true, beq_iff_eq] at hx
          simp [hx.1, hx.2]) _ _
  · exact dedupBy_countP_le_one _ _ (d, l)
      (by intro x hx; simp only [Bool.and_eq_true, beq_iff_eq] at hx
          simp [hx.1, hx.2]) _ _
  · exact dedupBy_countP_le_one _ _ (d, l, g)
      (by intro x hx; simp only [Bool.and_eq_true, beq_iff_eq] at hx
          simp [hx.1, hx.2.1, hx.2.2]) _ _

/-- `otherRows` distributes over concatenation. -/
lemma otherRows_append (a b : List Row) :
    otherRows (a ++ b) = otherRows a ++ otherRows b := by
  simp [otherRows]

/-- `arrDepRows` distributes over concatenation. -/
lemma arrDepRows_append (a b : List Row) :
    arrDepRows (a ++ b) = arrDepRows a ++ arrDepRows b := by
  simp [arrDepRows]

/-- An arrival/departure-labelled row is not a cancel/change/control row. -/
lemma otherRows_single_arrdep (d : Nat) (m l : String)
    (hl : l = "입항" ∨ l = "출항") : otherRows [⟨d, m, l⟩] = [] := by
  rcases hl with rfl | rfl <;> rfl

/-- A row whose message matches neither keyword group is dropped from the
grouped arrival/departure rows. -/
lemma arrDepRows_single_nogroup (d : Nat) (m l : String)
    (hg : groupOf m = none) : arrDepRows [⟨d, m, l⟩] = [] := by
  simp only [arrDepRows, List.filter_cons, List.filter_nil]
  by_cases hc : (l == "입항" || l == "출항") = true
  · simp [hc, List.filterMap_cons, hg]
  · simp [hc]

/-- C10.  In both summarizers the reported 입항/출항 counts equal the sums of
their 선박/사람 breakdown entries, and consequently an arrival/
departure-classified message matching no vessel keyword and no passenger
keyword is excluded from the 입항/출항 counts (and from every other part of
the output) entirely. -/
theorem counts_match_breakdown_sums (recs xs ys : List (Nat × String)) (d : Nat)
    (msg : String) :
    ((_summarize_sms_notice_counts recs).1.arrive =
        (_summarize_sms_notice_counts recs).2.2.arriveShip +
          (_summarize_sms_notice_counts recs).2.2.arrivePeople ∧
     (_summarize_sms_notice_counts recs).1.depart =
        (_summarize_sms_notice_counts recs).2.2.departShip +
          (_summarize_sms_notice_counts recs).2.2.departPeople ∧
     (_summarize_sms_notice_counts_window recs).1.arrive =
        (_summarize_sms_notice_counts_window recs).2.arriveShip +
          (_summarize_sms_notice_counts_window recs).2.arrivePeople ∧
     (_summarize_sms_notice_counts_window recs).1.depart =
        (_summarize_sms_notice_counts_window recs).2.departShip +
          (_summarize_sms_notice_counts_window recs).2.departPeople) ∧
    ((classify (pyStrip msg) = some "입항" ∨ classify (pyStrip msg) = some "출항") →
      groupOf (pyStrip msg) = none →
      _summarize_sms_notice_counts (xs ++ (d, msg) :: ys) =
        _summarize_sms_notice_counts (xs ++ ys)) ∧
    ((windowLabel (pyStrip msg) = some "입항" ∨
        windowLabel (pyStrip msg) = some "출항") →
      groupOf (pyStrip msg) = none →
      _summarize_sms_notice_counts_window (xs ++ (d, msg) :: ys) =
        _summarize_sms_notice_counts_window (xs ++ ys)) := by
  have hcomp : ∀ (f : String → Option String),
      (f (pyStrip msg) = some "입항" ∨ f (pyStrip msg) = some "출항") →
      groupOf (pyStrip msg) = none →
      otherRows (pipeline f (xs ++ (d, msg) :: ys)) =
        otherRows (pipeline f (xs ++ ys)) ∧
      arrDepRows (pipeline f (xs ++ (d, msg) :: ys)) =
        arrDepRows (pipeline f (xs ++ ys)) := by
    intro f hlab hg
    by_cases hsh : pyIn "셔틀" (pyStrip msg) = true
    · rw [pipeline_mid_shuttle f xs ys d msg hsh]
      exact ⟨rfl, rfl⟩
    · have hsingle : pipeline f [(d, msg)] =
          [⟨d, pyStrip msg, (f (pyStrip msg)).getD ""⟩] := by
        rcases hlab with hl | hl <;>
          simp [pipeline, stripMsgs, dropShuttle, labelRows, hsh, hl]
      have he : xs ++ (d, msg) :: ys = xs ++ ([(d, msg)] ++ ys) := by simp
      have hmid : pipeline f (xs ++ (d, msg) :: ys) =
          pipeline f xs ++ pipeline f [(d, msg)] ++ pipeline f ys := by
        rw [he, pipeline_append, pipeline_append]
        simp
      have hrest : pipeline f (xs ++ ys) = pipeline f xs ++ pipeline f ys :=
        pipeline_append f xs ys
      constructor
      · rw [hmid, hrest, otherRows_append, otherRows_append, hsingle,
            otherRows_append]
        rw [otherRows_single_arrdep d (pyStrip msg) _
              (by rcases hlab with hl | hl <;> simp [hl])]
        simp
      · rw [hmid, hrest, arrDepRows_append, arrDepRows_append, hsingle,
            arrDepRows_append]
        rw [arrDepRows_single_nogroup d (pyStrip msg) _ hg]
        simp
  refine ⟨⟨rfl, rfl, rfl, rfl⟩, ?_, ?_⟩
  · intro hlab hg
    obtain ⟨ho, ha⟩ := hcomp classify hlab hg
    simp only [_summarize_sms_notice_counts, yearCountsOf, yearBreakdownSOf,
      totalOf, otherCount, yearBreakdownOf]
    rw [ho, ha]
  · intro hlab hg
    obtain ⟨ho, ha⟩ := hcomp windowLabel hlab hg
    simp only [_summarize_sms_notice_counts_window, winCountsOf, winBreakdownSOf,
      otherCount, winBreakdownOf]
    rw [ho, ha]

/-- Witness for C10: `포항 → 울릉` is classified 입항 by both classifiers but
matches neither the vessel nor the passenger keyword group, so inserting it
changes neither summary. -/
theorem counts_match_breakdown_sums_witness :
    _summarize_sms_notice_counts [(1, "포항 → 울릉 입항 여객"), (2, "포항 → 울릉")] =
      _summarize_sms_notice_counts [(1, "포항 → 울릉 입항 여객")] ∧
    _summarize_sms_notice_counts_window
        [(1, "포항 → 울릉 입항 여객"), (2, "포항 → 울릉")] =
      _summarize_sms_notice_counts_window [(1, "포항 → 울릉 입항 여객")] := by
  have h := counts_match_breakdown_sums [] [(1, "포항 → 울릉 입항 여객")] [] 2 "포항 → 울릉"
  exact ⟨h.2.1 (Or.inl (by decide)) (by decide),
         h.2.2 (Or.inl (by decide)) (by decide)⟩

-- ---------------------------------------------------------------------------
-- Matcher theorems
-- ---------------------------------------------------------------------------

/-- The maximum token-overlap score of the query against an index. -/
def maxTokScore (nfc : String → String) (a : Finset String) :
    List (String × String) → Nat
  | [] => 0
  | (k, _) :: rest => max (tokScore nfc a k) (maxTokScore nfc a rest)

/-- The path of the first index entry whose score is exactly `m`. -/
def firstPathAt (nfc : String → String) (a : Finset String) (m : Nat) :
    List (String × String) → Option String
  | [] => none
  | (k, p) :: rest =>
      if tokScore nfc a k = m then some p else firstPathAt nfc a m rest

/-- Full characterisation of the token-tier loop: starting from accumulator
`(best, s)`, the loop returns the path of the first entry achieving the
maximum score when that maximum is ≥ 2 and beats `s`, and the accumulator
otherwise. -/
lemma tokenTierGo_spec (nfc : String → String) (a : Finset String) :
    ∀ (idx : List (String × String)) (best : Option String) (s : Nat),
      tokenTierGo nfc a idx best s =
        if 2 ≤ maxTokScore nfc a idx ∧ s < maxTokScore nfc a idx
        then firstPathAt nfc a (maxTokScore nfc a idx) idx
        else best := by
  intro idx
  induction idx with
  | nil =>
    intro best s
    simp [tokenTierGo, maxTokScore]
  | cons kv rest ih =>
    obtain ⟨k, p⟩ := kv
    intro best s
    simp only [tokenTierGo]
    have hM : maxTokScore nfc a ((k, p) :: rest) =
        max (tokScore nfc a k) (maxTokScore nfc a rest) := rfl
    by_cases htok : _tokenize_address nfc k = ∅
    · rw [if_pos htok]
      have hsc : tokScore nfc a k = 0 := by simp [tokScore, htok]
      rw [ih best s, hM, hsc, Nat.zero_max]
      by_cases hcond : 2 ≤ maxTokScore nfc a rest ∧ s < maxTokScore nfc a rest
      · rw [if_pos hcond, if_pos hcond, firstPathAt, hsc, if_neg (by omega)]
      · rw [if_neg hcond, if_neg hcond]
    · rw [if_neg htok]
      by_cases h2 : 2 ≤ tokScore nfc a k ∧ s < tokScore nfc a k
      · have hcb : (decide (2 ≤ tokScore nfc a k) &&
            decide (s < tokScore nfc a k)) = true := by
          simp [h2.1, h2.2]
        rw [if_pos hcb, ih (some p) (tokScore nfc a k)]
        rcases Nat.le_total (maxTokScore nfc a rest) (tokScore nfc a k) with hle | hle
        · rw [hM, Nat.max_eq_left hle, if_neg (by omega), if_pos ⟨h2.1, h2.2⟩,
              firstPathAt, if_pos rfl]
        · by_cases heq : tokScore nfc a k = maxTokScore nfc a rest
          · rw [if_neg (by omega), hM, Nat.max_eq_right hle, if_pos (by omega),
                firstPathAt, if_pos heq]
          · have hlt : tokScore nfc a k < maxTokScore nfc a rest := by omega
            rw [if_pos ⟨by omega, hlt⟩, hM, Nat.max_eq_right hle,
                if_pos (by omega), firstPathAt, if_neg heq]
      · have hcb : ¬ ((decide (2 ≤ tokScore nfc a k) &&
            decide (s < tokScore nfc a k)) = true) := by
          simp only [Bool.and_eq_true, decide_eq_true_eq]
          exact h2
        rw [if_neg hcb, ih best s]
        by_cases hc : 2 ≤ maxTokScore nfc a rest ∧ s < maxTokScore nfc a rest
        · have hsclt : tokScore nfc a k < maxTokScore nfc a rest := by
            by_contra hge
            push_neg at hge
            exact h2 ⟨by omega, by omega⟩
          rw [if_pos hc, hM, Nat.max_eq_right (Nat.le_of_lt hsclt), if_pos hc,
              firstPathAt, if_neg (by omega)]
        · rw [if_neg hc, hM]
          rcases Nat.le_total (tokScore nfc a k) (maxTokScore nfc a rest) with hle | hle
          · rw [Nat.max_eq_right hle, if_neg hc]
          · rw [Nat.max_eq_left hle, if_neg (fun hcc => h2 ⟨hcc.1, hcc.2⟩)]

/-- `firstPathAt` returns the path of an index entry with score exactly `m`. -/
lemma firstPathAt_mem (nfc : String → String) (a : Finset String) :
    ∀ (idx : List (String × String)) (m : Nat) (p : String),
      firstPathAt nfc a m idx = some p →
      ∃ k, (k, p) ∈ idx ∧ tokScore nfc a k = m := by
  intro idx
  induction idx with
  | nil => intro m p h; simp [firstPathAt] at h
  | cons kv rest ih =>
    obtain ⟨k, q⟩ := kv
    intro m p h
    rw [firstPathAt] at h
    by_cases hsc : tokScore nfc a k = m
    · rw [if_pos hsc] at h
      obtain rfl : q = p := by injection h
      exact ⟨k, List.mem_cons_self _ _, hsc⟩
    · rw [if_neg hsc] at h
      obtain ⟨k', hk', hsc'⟩ := ih m p h
      exact ⟨k', List.mem_cons_of_mem _ hk', hsc'⟩

/-- When the maximum score is positive some entry achieves it. -/
lemma firstPathAt_max_isSome (nfc : String → String) (a : Finset String) :
    ∀ idx : List (String × String), 1 ≤ maxTokScore nfc a idx →
      (firstPathAt nfc a (maxTokScore nfc a idx) idx).isSome = true := by
  intro idx
  induction idx with
  | nil => intro h; simp [maxTokScore] at h
  | cons kv rest ih =>
    obtain ⟨k, q⟩ := kv
    intro h
    rw [firstPathAt]
    by_cases hsc : tokScore nfc a k = maxTokScore nfc a ((k, q) :: rest)
    · rw [if_pos hsc]
      rfl
    · rw [if_neg hsc]
      have hMc : maxTokScore nfc a ((k, q) :: rest) =
          max (tokScore nfc a k) (maxTokScore nfc a rest) := rfl
      have hM : maxTokScore nfc a ((k, q) :: rest) = maxTokScore nfc a rest := by
        rcases Nat.le_total (tokScore nfc a k) (maxTokScore nfc a rest) with hle | hle
        · rw [hMc, Nat.max_eq_right hle]
        · exact absurd (by rw [hMc, Nat.max_eq_left hle]) hsc
      rw [hM]
      exact ih (by rw [hM] at h; exact h)

/-- Any single entry's score is bounded by the maximum. -/
lemma tokScore_le_maxTokScore (nfc : String → String) (a : Finset String) :
    ∀ (idx : List (String × String)) (k p : String), (k, p) ∈ idx →
      tokScore nfc a k ≤ maxTokScore nfc a idx := by
  intro idx
  induction idx with
  | nil => intro k p h; simp at h
  | cons kv rest ih =>
    obtain ⟨k0, p0⟩ := kv
    intro k p h
    rcases List.mem_cons.mp h with heq | hmem
    · obtain ⟨rfl, rfl⟩ := Prod.mk.injEq .. ▸ heq
      exact Nat.le_max_left _ _
    · exact le_trans (ih k p hmem) (Nat.le_max_right _ _)

/-- C3.  The token-overlap tier returns a match only when the best key shares
at least 2 tokens with the query (a key sharing ≤ 1 tokens is never
returned); if some index key shares ≥ 2 tokens, the tier returns the path of
the first-seen key achieving the maximum intersection size. -/
theorem token_tier_threshold (nfc : String → String) (a : Finset String)
    (idx : List (String × String)) :
    (maxTokScore nfc a idx < 2 → tokenTier nfc a idx = none) ∧
    (∀ p, tokenTier nfc a idx = some p →
      ∃ k, (k, p) ∈ idx ∧ 2 ≤ tokScore nfc a k) ∧
    (∀ k p, (k, p) ∈ idx → 2 ≤ tokScore nfc a k →
      (tokenTier nfc a idx).isSome = true) ∧
    (2 ≤ maxTokScore nfc a idx →
      tokenTier nfc a idx = firstPathAt nfc a (maxTokScore nfc a idx) idx) := by
  have hif : tokenTier nfc a idx =
      if 2 ≤ maxTokScore nfc a idx
      then firstPathAt nfc a (maxTokScore nfc a idx) idx
      else none := by
    rw [tokenTier, tokenTierGo_spec nfc a idx none 0]
    by_cases h : 2 ≤ maxTokScore nfc a idx
    · rw [if_pos ⟨h, by omega⟩, if_pos h]
    · rw [if_neg (fun hc => h hc.1), if_neg h]
  refine ⟨?_, ?_, ?_, ?_⟩
  · intro h
    rw [hif, if_neg (by omega)]
  · intro p hp
    rw [hif] at hp
    by_cases h : 2 ≤ maxTokScore nfc a idx
    · rw [if_pos h] at hp
      obtain ⟨k, hk, hsc⟩ := firstPathAt_mem nfc a idx _ p hp
      exact ⟨k, hk, by omega⟩
    · rw [if_neg h] at hp
      exact absurd hp (by simp)
  · intro k p hk hsc
    have hM : 2 ≤ maxTokScore nfc a idx :=
      le_trans hsc (tokScore_le_maxTokScore nfc a idx k p hk)
    rw [hif, if_pos hM]
    exact firstPathAt_max_isSome nfc a idx (by omega)
  · intro h
    rw [hif, if_pos h]

/-- Witness for C3: the query tokens of `태하리 123` share both tokens with
the key `태하리123사진`, so the token tier matches with maximum score 2. -/
theorem token_tier_threshold_witness :
    maxTokScore id (_tokenize_address id "태하리 123") [("태하리123사진", "p2.jpg")] = 2 ∧
    tokenTier id (_tokenize_address id "태하리 123") [("태하리123사진", "p2.jpg")] =
      firstPathAt id (_tokenize_address id "태하리 123")
        (maxTokScore id (_tokenize_address id "태하리 123")
          [("태하리123사진", "p2.jpg")])
        [("태하리123사진", "p2.jpg")] :=
  ⟨by decide,
   (token_tier_threshold id (_tokenize_address id "태하리 123")
     [("태하리123사진", "p2.jpg")]).2.2.2 (by decide)⟩

/-- `findSome?` splits the list at the first element on which `f` succeeds. -/
lemma findSome?_first {α β : Type} (f : α → Option β) :
    ∀ (l : List α) (t : α), t ∈ l → (f t).isSome = true →
      ∃ l₁ c l₂, l = l₁ ++ c :: l₂ ∧ (∀ c' ∈ l₁, f c' = none) ∧
        (f c).isSome = true ∧ l.findSome? f = f c := by
  intro l
  induction l with
  | nil => intro t h; simp at h
  | cons a rest ih =>
    intro t ht hsome
    cases hfa : f a with
    | some b =>
      refine ⟨[], a, rest, rfl, by simp, by simp [hfa], ?_⟩
      rw [List.findSome?_cons, hfa]
    | none =>
      have htm : t ∈ rest := by
        rcases List.mem_cons.mp ht with rfl | hm
        · rw [hfa] at hsome
          exact absurd hsome (by simp)
        · exact hm
      obtain ⟨l₁, c, l₂, heq, hnone, hc, hfind⟩ := ih t htm hsome
      refine ⟨a :: l₁, c, l₂, by rw [heq, List.cons_append], ?_, hc, ?_⟩
      · intro c' hc'
        rcases List.mem_cons.mp hc' with rfl | hm
        · exact hfa
        · exact hnone c' hm
      · rw [List.findSome?_cons, hfa]
        exact hfind

/-- C2.  If any candidate key of the query is present in the index, both
resolvers return the item stored under the first hitting candidate
immediately — the token-overlap tier is never consulted, so no
higher-scoring index entry can override the exact match. -/
theorem exact_tier_precedence (nfc : String → String)
    (idx : List (String × String)) (_hidx : idx ≠ [])
    (hkeys : ∀ kv ∈ idx, kv.1 ≠ "") :
    (∀ address t : String, t ∈ _address_candidates nfc address →
      (dictGet t idx).isSome = true →
      ∃ l₁ c l₂, _address_candidates nfc address = l₁ ++ c :: l₂ ∧
        (∀ c' ∈ l₁, dictGet c' idx = none) ∧ (dictGet c idx).isSome = true ∧
        _find_accident_photo_fast nfc address idx = dictGet c idx) ∧
    (∀ a : String, (dictGet (_norm_text nfc (some a)) idx).isSome = true →
      _find_rockfall_photo nfc (some a) idx =
        dictGet (_norm_text nfc (some a)) idx) := by
  constructor
  · intro address t ht hsome
    obtain ⟨l₁, c, l₂, heq, hnone, hc, hfind⟩ :=
      findSome?_first (fun t => dictGet t idx)
        (_address_candidates nfc address) t ht hsome
    refine ⟨l₁, c, l₂, heq, hnone, hc, ?_⟩
    obtain ⟨v, hv⟩ := Option.isSome_iff_exists.mp hc
    simp only [_find_accident_photo_fast]
    rw [if_neg (by intro h; rw [h] at ht; simp at ht), hfind, hv]
  · intro a hsome
    obtain ⟨v, hv⟩ := Option.isSome_iff_exists.mp hsome
    have htgt : _norm_text nfc (some a) ≠ "" := by
      intro h0
      obtain ⟨kv, hkv, hmapped⟩ := Option.map_eq_some'.mp hv
      have hp := List.find?_some hkv
      have hmem := List.mem_of_find?_eq_some hkv
      have : kv.1 = _norm_text nfc (some a) := of_decide_eq_true hp
      exact hkeys kv hmem (by rw [this, h0])
    simp only [_find_rockfall_photo]
    rw [if_neg htgt, hv]

/-- Witness for C2: the spec's example scenario 3 — stripping the province
and county prefixes yields the candidate `서면태하리123`, which is an index
key and is returned by the exact tier. -/
theorem exact_tier_precedence_witness :
    ∃ l₁ c l₂,
      _address_candidates id "경상북도 울릉군 서면 태하리 123" = l₁ ++ c :: l₂ ∧
      (∀ c' ∈ l₁, dictGet c' [("서면태하리123", "p1.jpg")] = none) ∧
      (dictGet c [("서면태하리123", "p1.jpg")]).isSome = true ∧
      _find_accident_photo_fast id "경상북도 울릉군 서면 태하리 123"
        [("서면태하리123", "p1.jpg")] = dictGet c [("서면태하리123", "p1.jpg")] :=
  (exact_tier_precedence id [("서면태하리123", "p1.jpg")] (by decide) (by decide)).1
    "경상북도 울릉군 서면 태하리 123" "서면태하리123" (by decide) (by decide)

-- ---------------------------------------------------------------------------
-- Normalization idempotence / totality (C9)
-- ---------------------------------------------------------------------------

/-- A kept character is neither whitespace nor an uppercase ASCII letter. -/
lemma isNormChar_props {c : Char} (h : isNormChar c = true) :
    isPySpace c = false ∧ pyLowerChar c = c := by
  simp only [isNormChar, Bool.or_eq_true, Bool.and_eq_true, decide_eq_true_eq] at h
  constructor
  · cases hsp : isPySpace c
    · rfl
    · exfalso
      simp only [isPySpace, Bool.or_eq_true, Bool.and_eq_true, beq_iff_eq,
        decide_eq_true_eq] at hsp
      omega
  · have hcond : ¬ ((decide (0x41 ≤ c.toNat) && decide (c.toNat ≤ 0x5A)) = true) := by
      simp only [Bool.and_eq_true, decide_eq_true_eq]
      omega
    rw [pyLowerChar, if_neg hcond]

/-- `dropWhile` is the identity on a list none of whose elements satisfy the
predicate. -/
lemma dropWhile_eq_self_of_none {p : Char → Bool} {l : List Char}
    (h : ∀ c ∈ l, p c = false) : l.dropWhile p = l := by
  cases l with
  | nil => rfl
  | cons c t =>
    rw [List.dropWhile_cons, if_neg (by rw [h c (List.mem_cons_self c t)]; simp)]

/-- `map` is the identity when every element is fixed. -/
lemma map_eq_self_of_fixed {f : Char → Char} {l : List Char}
    (h : ∀ c ∈ l, f c = c) : l.map f = l := by
  induction l with
  | nil => rfl
  | cons c t ih =>
    rw [List.map_cons, h c (List.mem_cons_self c t),
        ih (fun c hc => h c (List.mem_cons_of_mem _ hc))]

/-- C9.  `_norm_text` is idempotent and total: re-normalizing a normalized
string is the identity, and both `None` and the empty string normalize to
the empty string.  The hypothesis states the relevant fact about Unicode
NFC: strings made only of digits, lowercase ASCII letters and precomposed
Hangul syllables are already NFC-normal. -/
theorem norm_text_idempotent_total (nfc : String → String)
    (hnfc : ∀ t : String, (∀ c ∈ t.data, isNormChar c = true) → nfc t = t) :
    (∀ s : String,
      _norm_text nfc (some (_norm_text nfc (some s))) = _norm_text nfc (some s)) ∧
    _norm_text nfc none = "" ∧ _norm_text nfc (some "") = "" := by
  have hfix : ∀ r : String, (∀ c ∈ r.data, isNormChar c = true) →
      _norm_text nfc (some r) = r := by
    intro r hr
    simp only [_norm_text]
    rw [hnfc r hr]
    have hstrip : pyStrip r = r := by
      rw [pyStrip,
          dropWhile_eq_self_of_none (fun c hc => (isNormChar_props (hr c hc)).1),
          dropWhile_eq_self_of_none
            (fun c hc => (isNormChar_props (hr c (List.mem_reverse.mp hc))).1),
          List.reverse_reverse]
    rw [hstrip]
    have hlower : pyLower r = r := by
      rw [pyLower,
          map_eq_self_of_fixed (fun c hc => (isNormChar_props (hr c hc)).2)]
    rw [hlower, normFilter, List.filter_eq_self.mpr hr]
  have hdata : ∀ s : String,
      (_norm_text nfc (some s)).data =
        ((pyLower (pyStrip (nfc s))).data).filter isNormChar := fun s => rfl
  have hempty : nfc "" = "" := by
    apply hnfc
    intro c hc
    rw [show ("" : String).data = [] from rfl] at hc
    simp at hc
  refine ⟨?_, ?_, ?_⟩
  · intro s
    apply hfix
    intro c hc
    rw [hdata s] at hc
    exact List.of_mem_filter hc
  · simp only [_norm_text]
    rw [hempty]
    rfl
  · simp only [_norm_text]
    rw [hempty]
    rfl

/-- Witness for C9: with the identity in place of NFC (correct on the ASCII
and precomposed-Hangul sample), normalization of a mixed-content address is
idempotent and `None` normalizes to the empty string. -/
theorem norm_text_idempotent_total_witness :
    _norm_text id (some (_norm_text id (some " 울릉군 Doro 123 "))) =
      _norm_text id (some " 울릉군 Doro 123 ") ∧
    _norm_text id none = "" :=
  ⟨(norm_text_idempotent_total id (fun _ _ => rfl)).1 " 울릉군 Doro 123 ",
   (norm_text_idempotent_total id (fun _ _ => rfl)).2.1⟩


end Ulleung
